import Mathlib

/-!
Verification of the soil monitoring and irrigation firmware
(`SensorManager.cpp`, `DataTypes.h`, and the irrigation controller
described in the design document).

Modelling conventions:
* `float` values that can carry NaN (the DHT22 temperature/humidity
  readings) are embedded as `Option ℚ`, with `none` standing for NaN.
  Every ordered comparison against NaN is false in C, which the
  embedding reproduces by pattern matching.  Channels whose values are
  always finite numbers (pH, filter buffers) are embedded as plain `ℚ`,
  with float arithmetic idealised as exact rational arithmetic.
* Machine integers are embedded as `ℕ` with explicit reductions
  `% 2 ^ 32` / `% 2 ^ 16` at the places where the machine wraps or
  truncates (uint32 sums, uint16 casts, `millis()` timestamps).
* `FILTER_SIZE` and the other contents of `Config.h` are not part of
  the sources at hand; the filter is therefore parametric in the
  buffer size `FS`, and the check interval uses the documented default.
-/

/-- A C `float` value that may be NaN: `none` is NaN, `some q` a finite
value idealised as a rational. -/
abbrev FVal := Option ℚ

/-- Modelled from the spec: `PH_SCALE_MAX` lives in the absent
`Config.h`; the spec fixes the pH conversion as `raw/4095 × 14.0`. -/
def PH_SCALE_MAX : ℚ := 14

/-- Modelled from the spec: `SENSOR_CHECK_INTERVAL` lives in the absent
`Config.h`; the spec documents a fixed 200 ms acquisition period. -/
def SENSOR_CHECK_INTERVAL : ℕ := 200

/-- uint32 modulus. -/
def U32 : ℕ := 2 ^ 32

/-- uint16 modulus. -/
def U16 : ℕ := 2 ^ 16

/-- uint32 subtraction `a - b` (wrapping), for `a b < U32`. -/
def sub32 (a b : ℕ) : ℕ := (a + U32 - b) % U32

/-- `struct SensorRawData` (DataTypes.h).  `temperatureRaw` and
`humidityRaw` may hold NaN. -/
structure SensorRawData where
  phRaw : ℕ
  temperatureRaw : FVal
  humidityRaw : FVal
  phosphorusState : ℕ
  potassiumState : ℕ
  timestamp : ℕ
deriving Repr, DecidableEq

/-- Default constructor of `SensorRawData`. -/
def SensorRawData.default : SensorRawData :=
  { phRaw := 0, temperatureRaw := some 0, humidityRaw := some 0,
    phosphorusState := 0, potassiumState := 0, timestamp := 0 }

/-- `struct SensorData` (DataTypes.h): processed physical-unit view. -/
structure SensorData where
  ph : ℚ
  temperature : FVal
  humidityPercent : FVal
  phosphorusPresent : Bool
  potassiumPresent : Bool
  timestamp : ℕ
deriving Repr, DecidableEq

/-- Default constructor of `SensorData`. -/
def SensorData.default : SensorData :=
  { ph := 0, temperature := some 0, humidityPercent := some 0,
    phosphorusPresent := false, potassiumPresent := false, timestamp := 0 }

/-- `SensorData::fromRaw` (DataTypes.h lines 53-72): every field of the
processed struct is assigned from the raw struct. -/
def SensorData.fromRaw (raw : SensorRawData) : SensorData :=
  { ph := (raw.phRaw : ℚ) * PH_SCALE_MAX / 4095,
    temperature := raw.temperatureRaw,
    humidityPercent := raw.humidityRaw,
    phosphorusPresent := raw.phosphorusState ≠ 0,
    potassiumPresent := raw.potassiumState ≠ 0,
    timestamp := raw.timestamp }

/-! ## The moving-average filter (`SensorManager::applyFilter`) -/

/-- uint32 accumulation of a list, wrapping at `2 ^ 32`, matching the
`sum += readings[i]` loop over a `uint32_t sum`. -/
def sumU32 (l : List ℕ) : ℕ := l.foldl (fun a b => (a + b) % U32) 0

/-- `SensorManager::applyFilter(uint16_t readings[], uint16_t newValue)`
(SensorManager.cpp lines 58-69): overwrite the slot at the rotating
index, sum the buffer into a uint32, divide by `FS`, cast to uint16.
Returns the updated buffer and the returned average. -/
def applyFilterU16 (FS idx : ℕ) (readings : List ℕ) (newValue : ℕ) :
    List ℕ × ℕ :=
  let r := readings.set idx newValue
  (r, (sumU32 r / FS) % U16)

/-- `SensorManager::applyFilter(float readings[], float newValue)`
(SensorManager.cpp lines 71-84), float arithmetic idealised as exact. -/
def applyFilterFloat (FS idx : ℕ) (readings : List ℚ) (newValue : ℚ) :
    List ℚ × ℚ :=
  let r := readings.set idx newValue
  (r, r.sum / FS)

/-- Feeding a sample sequence through the uint16 filter, the rotating
index advancing once per call (as one acquisition cycle does); result is
the value returned by the last call. -/
def feedU16 (FS : ℕ) : ℕ → List ℕ → List ℕ → List ℕ × ℕ
  | _, b, [] => (b, 0)
  | i, b, [x] => applyFilterU16 FS i b x
  | i, b, x :: y :: s =>
      feedU16 FS ((i + 1) % FS) (applyFilterU16 FS i b x).1 (y :: s)

/-- Feeding a sample sequence through the float filter, the rotating
index advancing once per call; result is the value returned by the last
call. -/
def feedFloat (FS : ℕ) : ℕ → List ℚ → List ℚ → List ℚ × ℚ
  | _, b, [] => (b, 0)
  | i, b, [x] => applyFilterFloat FS i b x
  | i, b, x :: y :: s =>
      feedFloat FS ((i + 1) % FS) (applyFilterFloat FS i b x).1 (y :: s)

/-- The buffer contents after feeding a sample sequence: each sample is
written at the current rotating index, which then advances mod `FS`. -/
def runBuf (FS : ℕ) {α : Type} : List α → ℕ → List α → List α
  | b, _, [] => b
  | b, i, x :: s => runBuf FS (b.set i x) ((i + 1) % FS) s

/-! ## SensorManager state (`SensorManager.h`/`.cpp`) -/

/-- The mutable state of `SensorManager`, including the two
function-static float buffers of `readSensors` and the function-static
`lastDisplayUpdate` of `update`. -/
structure SMState where
  lastReadTime : ℕ
  lastStateCheckTime : ℕ
  readCount : ℕ
  lastPhosphorusState : Bool
  lastPotassiumState : Bool
  filterIndex : ℕ
  phReadings : List ℕ
  tempBuffer : List ℚ
  humidityBuffer : List ℚ
  rawData : SensorRawData
  processedData : SensorData
  displayUpdate : ℕ
deriving Repr, DecidableEq

/-- One acquisition cycle's hardware inputs: the clock and the primitive
`Hardware` reads.  `millis()` is read more than once inside a cycle; the
embedding treats the cycle as instantaneous, so all reads agree. -/
structure SensorEnv where
  millis : ℕ
  phosphorusBtn : Bool
  potassiumBtn : Bool
  phRaw : ℕ
  temperature : FVal
  humidity : FVal
deriving Repr, DecidableEq

/-- `SensorManager::SensorManager()` (lines 17-42) plus the zero-filled
static buffers: filter arrays zeroed, processed temperature 25 °C and
humidity 50 %, nutrient states absent. -/
def SMState.initial (FS : ℕ) : SMState :=
  { lastReadTime := 0, lastStateCheckTime := 0, readCount := 0,
    lastPhosphorusState := false, lastPotassiumState := false,
    filterIndex := 0,
    phReadings := List.replicate FS 0,
    tempBuffer := List.replicate FS 0,
    humidityBuffer := List.replicate FS 0,
    rawData := { SensorRawData.default with
                  temperatureRaw := some 25, humidityRaw := some 50 },
    processedData := { SensorData.default with
                  temperature := some 25, humidityPercent := some 50 },
    displayUpdate := 0 }

/-- `SensorManager::readSensors()` (lines 86-139).  A NaN probe value
(`none`) fails both range comparisons, so it takes the invalid branch,
bypassing the filter while still being stored as the latest raw value. -/
def readSensors (FS : ℕ) (s : SMState) (e : SensorEnv) : SMState :=
  let ts := e.millis % U32
  let phosphorusState : ℕ := if e.phosphorusBtn then 1 else 0
  let potassiumState : ℕ := if e.potassiumBtn then 1 else 0
  let phPair := applyFilterU16 FS s.filterIndex s.phReadings (e.phRaw % U16)
  let tempPair : List ℚ × FVal :=
    match e.temperature with
    | some t =>
        if -50 < t ∧ t < 100 then
          let p := applyFilterFloat FS s.filterIndex s.tempBuffer t
          (p.1, some p.2)
        else (s.tempBuffer, some t)
    | none => (s.tempBuffer, none)
  let humPair : List ℚ × FVal :=
    match e.humidity with
    | some h =>
        if 0 ≤ h ∧ h ≤ 100 then
          let p := applyFilterFloat FS s.filterIndex s.humidityBuffer h
          (p.1, some p.2)
        else (s.humidityBuffer, some h)
    | none => (s.humidityBuffer, none)
  { s with
    readCount := s.readCount + 1,
    rawData := { phRaw := phPair.2,
                 temperatureRaw := tempPair.2,
                 humidityRaw := humPair.2,
                 phosphorusState := phosphorusState,
                 potassiumState := potassiumState,
                 timestamp := ts },
    phReadings := phPair.1,
    tempBuffer := tempPair.1,
    humidityBuffer := humPair.1,
    filterIndex := (s.filterIndex + 1) % FS,
    lastReadTime := ts }

/-- `SensorManager::processSensorData()` (lines 141-147). -/
def processSensorData (s : SMState) : SMState :=
  { s with processedData := SensorData.fromRaw s.rawData }

/-- `SensorManager::checkStateChanges()` (lines 149-171): latch the
last-seen nutrient levels on change and stamp the check time. -/
def checkStateChanges (s : SMState) (now : ℕ) : SMState :=
  let newP : Bool := decide (s.rawData.phosphorusState ≠ 0)
  let newK : Bool := decide (s.rawData.potassiumState ≠ 0)
  let lastP := if newP ≠ s.lastPhosphorusState then newP else s.lastPhosphorusState
  let lastK := if newK ≠ s.lastPotassiumState then newK else s.lastPotassiumState
  { s with lastPhosphorusState := lastP, lastPotassiumState := lastK,
           lastStateCheckTime := now % U32 }

/-- `SensorManager::init()` (lines 44-56): one initial acquisition to
populate the buffers. -/
def smInit (FS : ℕ) (e : SensorEnv) : SMState :=
  processSensorData (readSensors FS (SMState.initial FS) e)

/-- The `lastDisplayUpdate` refresh inside the full path of `update`
(lines 228-230); it touches nothing but the static display clock. -/
def displayStep (currentTime : ℕ) (s : SMState) : SMState :=
  if 500 ≤ sub32 currentTime s.displayUpdate then
    { s with displayUpdate := currentTime }
  else s

/-- The full acquisition path of `update` (lines 219-236): read, process,
refresh the display clock, check state changes. -/
def fullCycle (FS : ℕ) (s : SMState) (e : SensorEnv) : SMState :=
  checkStateChanges
    (displayStep (e.millis % U32) (processSensorData (readSensors FS s e)))
    e.millis

/-- The fast digital-only sub-poll of `update` (lines 240-266): when
50 ms elapsed since the last state check, re-read only the two nutrient
buttons and, on a change against the processed flags, update the raw
states and processed flags and log the transition. -/
def fastPoll (e : SensorEnv) (step1 : SMState × Bool) : SMState × Bool :=
  let s1 := step1.1
  if 50 ≤ sub32 (e.millis % U32) s1.lastStateCheckTime then
    if e.phosphorusBtn ≠ s1.processedData.phosphorusPresent
        ∨ e.potassiumBtn ≠ s1.processedData.potassiumPresent then
      (checkStateChanges
        { s1 with
          rawData := { s1.rawData with
            phosphorusState := if e.phosphorusBtn then 1 else 0,
            potassiumState := if e.potassiumBtn then 1 else 0 },
          processedData := { s1.processedData with
            phosphorusPresent := e.phosphorusBtn,
            potassiumPresent := e.potassiumBtn } } e.millis, true)
    else step1
  else step1

/-- `SensorManager::update(bool forceUpdate)` (lines 211-269): the full
acquisition path when the 200 ms period elapsed (or forced), then the
fast digital-only sub-poll.  Returns the new state and `dataChanged`. -/
def update (FS : ℕ) (s : SMState) (e : SensorEnv) (forceUpdate : Bool) :
    SMState × Bool :=
  fastPoll e
    (if SENSOR_CHECK_INTERVAL ≤ sub32 (e.millis % U32) s.lastReadTime
        ∨ forceUpdate = true then
      (fullCycle FS s e, true)
    else (s, false))

/-- `SensorManager::getData()` (lines 271-273). -/
def getData (s : SMState) : SensorData := s.processedData

/-! ## Telemetry (`SensorManager::prepareTelemetry`, TelemetryBuffer) -/

/-- `struct SystemStats` (DataTypes.h lines 100-112). -/
structure SystemStats where
  freeHeap : ℕ
  minFreeHeap : ℕ
  heapFragmentation : ℕ
  cpuLoad : ℕ
  uptime : ℕ
  wifiRSSI : ℕ
  sensorReadCount : ℕ
deriving Repr, DecidableEq

/-- The call-time environment of `prepareTelemetry`: system monitor
stats, WiFi state and the clock. -/
structure TelemetryEnv where
  stats : SystemStats
  wifiRssi : ℤ
  ip0 : ℕ
  ip1 : ℕ
  ip2 : ℕ
  ip3 : ℕ
  millis : ℕ
deriving Repr, DecidableEq

/-- The dotted-quad rendering of the four IP octets, as produced by
`snprintf(ipStr, 16, "%d.%d.%d.%d", ...)` on uint8 octets.  Four octets
take at most 15 characters, so the 16-byte buffer and the bounded
`StringUtils::safeCopyString` (sources absent; modelled from the spec as
a bounded copy) never truncate. -/
def ipRender (a b c d : ℕ) : String :=
  Nat.repr (a % 256) ++ "." ++ Nat.repr (b % 256) ++ "." ++
  Nat.repr (c % 256) ++ "." ++ Nat.repr (d % 256)

/-- `struct TelemetryBuffer`, with exactly the fields
`SensorManager::prepareTelemetry` fills (TelemetryBuffer.h is absent
from the sources; field list taken from the assignments in
SensorManager.cpp lines 173-209). -/
structure TelemetryBuffer where
  temperature : FVal
  humidity : FVal
  ph : ℚ
  phosphorusPresent : Bool
  potassiumPresent : Bool
  freeHeap : ℕ
  heapFragmentation : ℕ
  uptime : ℕ
  wifiRssi : ℤ
  ipAddress : String
  timestamp : ℕ
  readCount : ℕ
deriving Repr, DecidableEq

/-- `SensorManager::prepareTelemetry()` (lines 173-209): copy the
processed sensor fields, the system stats, the WiFi data, and stamp the
buffer with the current `millis()` and the read count. -/
def prepareTelemetry (s : SMState) (env : TelemetryEnv) : TelemetryBuffer :=
  { temperature := s.processedData.temperature,
    humidity := s.processedData.humidityPercent,
    ph := s.processedData.ph,
    phosphorusPresent := s.processedData.phosphorusPresent,
    potassiumPresent := s.processedData.potassiumPresent,
    freeHeap := env.stats.freeHeap,
    heapFragmentation := env.stats.heapFragmentation,
    uptime := env.stats.uptime,
    wifiRssi := env.wifiRssi,
    ipAddress := ipRender env.ip0 env.ip1 env.ip2 env.ip3,
    timestamp := env.millis % U32,
    readCount := s.readCount }

/-! ## JSON formatting (`SensorData::toJsonString`, `getDataJson`) -/

/-- `%.1f` rendering of a finite float value: round to tenths and print
one fractional digit.  (`printf` resolves exact ties to even; the tie
case cannot change any theorem below and is rendered half-up here.) -/
def fmtFixed1 (q : ℚ) : List Char :=
  let n : ℤ := round (q * 10)
  (if n < 0 then ['-'] else []) ++ (Nat.repr (n.natAbs / 10)).data
    ++ '.' :: (Nat.repr (n.natAbs % 10)).data

/-- `%.1f` rendering of a float that may be NaN. -/
def fmtFloat1 : FVal → List Char
  | none => ['n', 'a', 'n']
  | some q => fmtFixed1 q

/-- `%s` rendering of the C ternary `b ? "true" : "false"`. -/
def boolChars (b : Bool) : List Char :=
  if b then "true".data else "false".data

/-- The full JSON document `snprintf` would produce in
`SensorData::toJsonString` (DataTypes.h lines 84-90). -/
def jsonChars (d : SensorData) : List Char :=
  "\x7b\"ph\":".data ++ fmtFixed1 d.ph
    ++ ",\"temperature\":".data ++ fmtFloat1 d.temperature
    ++ ",\"humidity\":".data ++ fmtFloat1 d.humidityPercent
    ++ ",\"phosphorus\":".data ++ boolChars d.phosphorusPresent
    ++ ",\"potassium\":".data ++ boolChars d.potassiumPresent
    ++ ",\"timestamp\":".data ++ (Nat.repr (d.timestamp % U32)).data
    ++ "\x7d".data

/-- `SensorData::toJsonString(char *buffer, size_t size)` (DataTypes.h
lines 81-93).  `buffer` is modelled by `bufNull` plus the characters the
call leaves in it (`none` when nothing is written): `snprintf` writes at
most `size - 1` characters plus a terminator and returns the untruncated
length; success is `written > 0 && written < size`. -/
def toJsonString (d : SensorData) (bufNull : Bool) (size : ℕ) :
    Option (List Char) × Bool :=
  if bufNull = true ∨ size = 0 then (none, false)
  else
    let doc := jsonChars d
    let written := doc.length
    (some (doc.take (size - 1)), decide (0 < written ∧ written < size))

/-- `SensorManager::getDataJson` (SensorManager.cpp lines 279-283). -/
def getDataJson (s : SMState) (bufNull : Bool) (size : ℕ) :
    Option (List Char) × Bool :=
  if bufNull = true ∨ size = 0 then (none, false)
  else toJsonString s.processedData bufNull size

/-! ## IrrigationController

Modelled from the spec: the irrigation controller sources are not under
`src/` (only this repository's documentation describes them).  The state
machine follows section 4.3 of the design document verbatim: states
IDLE/ACTIVE/LOCKOUT; IDLE→ACTIVE when moisture is below the low
threshold (or a manual toggle is commanded) and the minimum
inter-activation interval has elapsed since the last deactivation;
ACTIVE→IDLE when moisture reaches the high threshold, the continuous
runtime reaches the maximum ceiling, or a manual stop/toggle is
commanded; ACTIVE→LOCKOUT only on emergency stop; LOCKOUT→IDLE only on
operator reset.  Every transition out of ACTIVE stamps the deactivation
time; ACTIVE→IDLE also accumulates runtime and bumps the daily count. -/

/-- Modelled from the spec: the three controller states of §4.3. -/
inductive IrrPhase where
  | idle
  | active
  | lockout
deriving Repr, DecidableEq

/-- Modelled from the spec: the commands a caller can issue (manual
toggle, manual stop, emergency stop, operator reset, or none). -/
inductive IrrCmd where
  | noCmd
  | toggle
  | stop
  | emergency
  | reset
deriving Repr, DecidableEq

/-- Modelled from the spec: configured thresholds and safety limits,
immutable at construction (§6). -/
structure IrrConfig where
  lowThreshold : ℚ
  highThreshold : ℚ
  minInterval : ℕ
  maxRuntime : ℕ
deriving Repr, DecidableEq

/-- Modelled from the spec: `IrrigationState` of §3 (active flag as the
phase, activation start, last deactivation, cumulative runtime, daily
count). -/
structure IrrState where
  phase : IrrPhase
  activationStart : ℕ
  lastDeactivation : ℕ
  cumulativeRuntime : ℕ
  dailyCount : ℕ
deriving Repr, DecidableEq

/-- Modelled from the spec: boot state, idle with zeroed counters. -/
def IrrState.start : IrrState :=
  { phase := .idle, activationStart := 0, lastDeactivation := 0,
    cumulativeRuntime := 0, dailyCount := 0 }

/-- Modelled from the spec: one evaluation of the §4.3 transition
function at monotonic time `now` with the current moisture reading and
the pending command.  The two safety gates (minimum inter-activation
interval, maximum continuous runtime) sit inside this function. -/
def irrStep (cfg : IrrConfig) (s : IrrState) (now : ℕ) (moisture : ℚ)
    (cmd : IrrCmd) : IrrState :=
  match s.phase with
  | .idle =>
      if (moisture < cfg.lowThreshold ∨ cmd = .toggle)
          ∧ cfg.minInterval ≤ now - s.lastDeactivation then
        { s with phase := .active, activationStart := now }
      else s
  | .active =>
      if cmd = .emergency then
        { s with phase := .lockout, lastDeactivation := now,
                 cumulativeRuntime :=
                   s.cumulativeRuntime + (now - s.activationStart) }
      else if cfg.highThreshold ≤ moisture
          ∨ cfg.maxRuntime ≤ now - s.activationStart
          ∨ cmd = .stop ∨ cmd = .toggle then
        { s with phase := .idle, lastDeactivation := now,
                 cumulativeRuntime :=
                   s.cumulativeRuntime + (now - s.activationStart),
                 dailyCount := s.dailyCount + 1 }
      else s
  | .lockout =>
      if cmd = .reset then { s with phase := .idle } else s

/-- One controller cycle's inputs: the time elapsed since the previous
cycle, the moisture reading, and the pending command. -/
structure IrrInput where
  dt : ℕ
  moisture : ℚ
  cmd : IrrCmd
deriving Repr, DecidableEq

/-- Run the controller over a sequence of cycle inputs, threading the
monotonic clock; returns the final clock and state. -/
def irrRun (cfg : IrrConfig) : ℕ × IrrState → List IrrInput → ℕ × IrrState
  | p, [] => p
  | (clock, s), inp :: rest =>
      let now := clock + inp.dt
      irrRun cfg (now, irrStep cfg s now inp.moisture inp.cmd) rest

/-- The clock instants at which the controller enters ACTIVE along a
run (the start of each ACTIVE interval). -/
def activationTimes (cfg : IrrConfig) : ℕ × IrrState → List IrrInput → List ℕ
  | _, [] => []
  | (clock, s), inp :: rest =>
      let now := clock + inp.dt
      let s2 := irrStep cfg s now inp.moisture inp.cmd
      (if s.phase ≠ .active ∧ s2.phase = .active then [now] else [])
        ++ activationTimes cfg (now, s2) rest

/-- Structural invariant of a controller state observed at clock `now`:
timestamps never lie in the future; while ACTIVE, the activation start
is at least a minimum interval past the last deactivation; while not
ACTIVE, the activation start is no later than the last deactivation. -/
def IrrInv (cfg : IrrConfig) (now : ℕ) (s : IrrState) : Prop :=
  s.activationStart ≤ now ∧ s.lastDeactivation ≤ now ∧
  (s.phase = .active →
    s.lastDeactivation + cfg.minInterval ≤ s.activationStart ∧
    s.lastDeactivation ≤ s.activationStart) ∧
  (s.phase ≠ .active → s.activationStart ≤ s.lastDeactivation)

/-- The running-time safety bound at an observable instant: while
ACTIVE, the elapsed runtime is strictly below the configured ceiling. -/
def runtimeOK (cfg : IrrConfig) (now : ℕ) (s : IrrState) : Prop :=
  s.phase = .active → now < s.activationStart + cfg.maxRuntime

/-- The lower bound every future activation instant must exceed by at
least the minimum interval: the current activation start while ACTIVE,
the last deactivation otherwise. -/
def anchor (s : IrrState) : ℕ :=
  if s.phase = .active then s.activationStart else s.lastDeactivation

/-! ## Concrete inputs used in witnesses and counterexamples -/

/-- Manager state used in the C5 counterexample. -/
def telState : SMState := SMState.initial 3

/-- Telemetry environment at `millis() = 1000` for the C5 counterexample. -/
def telEnvA : TelemetryEnv :=
  { stats := ⟨1000, 900, 5, 10, 60, 70, 4⟩, wifiRssi := -50,
    ip0 := 192, ip1 := 168, ip2 := 0, ip3 := 1, millis := 1000 }

/-- The same environment one second later, with no intervening publish. -/
def telEnvB : TelemetryEnv := { telEnvA with millis := 2000 }

/-- Acquisition environment whose probe reads return NaN. -/
def nanEnv : SensorEnv :=
  { millis := 1000, phosphorusBtn := false, potassiumBtn := false,
    phRaw := 2048, temperature := none, humidity := none }

/-- Acquisition environment with out-of-range probe values. -/
def rangeEnv : SensorEnv :=
  { millis := 0, phosphorusBtn := false, potassiumBtn := false,
    phRaw := 0, temperature := some 200, humidity := some 150 }

/-- The processed nutrient flags agree with the raw digital states. -/
def flagsConsistent (s : SMState) : Prop :=
  (s.processedData.phosphorusPresent = true ↔ s.rawData.phosphorusState ≠ 0) ∧
  (s.processedData.potassiumPresent = true ↔ s.rawData.potassiumState ≠ 0)

instance (s : SMState) : Decidable (flagsConsistent s) :=
  inferInstanceAs (Decidable (_ ∧ _))

/-- Acquisition environment arriving 100 ms after boot: too early for a
full cycle, in time for the fast digital sub-poll. -/
def pollEnv : SensorEnv :=
  { millis := 100, phosphorusBtn := true, potassiumBtn := false,
    phRaw := 512, temperature := some 25, humidity := some 50 }

/-- Modelled from the spec: a sane irrigation configuration (moisture
thresholds 30/60 %, minimum interval 60 s, maximum runtime 5 min). -/
def irrCfgDemo : IrrConfig :=
  { lowThreshold := 30, highThreshold := 60,
    minInterval := 60000, maxRuntime := 300000 }

/-- A demonstration input history: dry soil throughout; the controller
activates at 60 s, is force-stopped by the runtime ceiling, waits out
the minimum interval, and activates again. -/
def irrInputsDemo : List IrrInput :=
  [⟨60000, 25, .noCmd⟩, ⟨100, 25, .noCmd⟩, ⟨400000, 25, .noCmd⟩,
    ⟨100, 25, .noCmd⟩, ⟨60000, 25, .noCmd⟩]

/-! ## Helper lemmas -/

theorem jsonChars_length_pos (d : SensorData) : 0 < (jsonChars d).length := by
  simp only [jsonChars, List.length_append, List.length_cons, List.length_nil]
  omega

/-! ## Claims -/

/-- C6: the raw-to-physical pH conversion is the fixed linear scaling
`raw / 4095 × 14.0`; in particular raw code 2048 converts to a physical
pH within 0.05 of 7.0. -/
theorem pH_conversion_linear_midscale :
    (∀ raw : SensorRawData,
      (SensorData.fromRaw raw).ph = (raw.phRaw : ℚ) / 4095 * 14) ∧
    |(SensorData.fromRaw
        { SensorRawData.default with phRaw := 2048 }).ph - 7| ≤ 5 / 100 := by
  constructor
  · intro raw
    simp only [SensorData.fromRaw, PH_SCALE_MAX]
    ring
  · rw [abs_le]
    constructor <;>
      norm_num [SensorData.fromRaw, PH_SCALE_MAX, SensorRawData.default]

/-- C4: every call to `readSensors` advances the shared rotating filter
index by exactly one position modulo `FILTER_SIZE`, and every filter
buffer written during that cycle (pH always; temperature/humidity when
the reading is valid) is written at the pre-advance index, so the
advance happens only after all channels of the cycle were filtered. -/
theorem filter_index_advances_once_per_cycle (FS : ℕ) (s : SMState)
    (e : SensorEnv) :
    (readSensors FS s e).filterIndex = (s.filterIndex + 1) % FS ∧
    (readSensors FS s e).phReadings
      = s.phReadings.set s.filterIndex (e.phRaw % U16) ∧
    ((readSensors FS s e).tempBuffer = s.tempBuffer ∨
      ∃ t : ℚ, e.temperature = some t ∧
        (readSensors FS s e).tempBuffer = s.tempBuffer.set s.filterIndex t) ∧
    ((readSensors FS s e).humidityBuffer = s.humidityBuffer ∨
      ∃ h : ℚ, e.humidity = some h ∧
        (readSensors FS s e).humidityBuffer
          = s.humidityBuffer.set s.filterIndex h) := by
  refine ⟨rfl, rfl, ?_, ?_⟩
  · cases he : e.temperature with
    | none => left; simp [readSensors, he]
    | some t =>
        by_cases hr : -50 < t ∧ t < 100
        · exact Or.inr ⟨t, rfl, by simp [readSensors, he, hr, applyFilterFloat]⟩
        · left; simp [readSensors, he, hr]
  · cases he : e.humidity with
    | none => left; simp [readSensors, he]
    | some h =>
        by_cases hr : 0 ≤ h ∧ h ≤ 100
        · exact Or.inr ⟨h, rfl, by simp [readSensors, he, hr, applyFilterFloat]⟩
        · left; simp [readSensors, he, hr]

/-- C5 (amended): the composite telemetry snapshot is a pure function of
the manager state and the call-time environment; with no intervening
publish all sensor-derived fields (temperature, humidity, pH, nutrient
flags, read count) of two snapshots coincide, but the timestamp is the
call-time `millis()`, so the composites are bit-identical only when the
environment readings (clock, system stats, WiFi data) coincide too. -/
theorem snapshot_sensor_fields_stable (s : SMState) (e1 e2 : TelemetryEnv) :
    (prepareTelemetry s e1).temperature = (prepareTelemetry s e2).temperature ∧
    (prepareTelemetry s e1).humidity = (prepareTelemetry s e2).humidity ∧
    (prepareTelemetry s e1).ph = (prepareTelemetry s e2).ph ∧
    (prepareTelemetry s e1).phosphorusPresent
      = (prepareTelemetry s e2).phosphorusPresent ∧
    (prepareTelemetry s e1).potassiumPresent
      = (prepareTelemetry s e2).potassiumPresent ∧
    (prepareTelemetry s e1).readCount = (prepareTelemetry s e2).readCount ∧
    (prepareTelemetry s e1).timestamp = e1.millis % U32 :=
  ⟨rfl, rfl, rfl, rfl, rfl, rfl, rfl⟩

/-- C5 counterexample: taking the snapshot twice with no intervening
publish but at different clock instants yields composites that differ in
the timestamp field, so they are not bit-identical. -/
theorem snapshot_not_bit_identical :
    prepareTelemetry telState telEnvA ≠ prepareTelemetry telState telEnvB := by
  intro h
  have ht := congrArg TelemetryBuffer.timestamp h
  simp only [prepareTelemetry, telEnvA, telEnvB, U32] at ht
  omega

/-- C7: JSON formatting succeeds (returns `true`) exactly when the
buffer is non-null and large enough that the complete, untruncated
document was written into it; a null buffer, zero size or too-small
buffer yields `false`, and a truncated write is never reported as
complete. -/
theorem json_success_iff_untruncated (d : SensorData) (bufNull : Bool)
    (size : ℕ) :
    (toJsonString d bufNull size).2 = true ↔
      bufNull = false ∧ (jsonChars d).length < size ∧
        (toJsonString d bufNull size).1 = some (jsonChars d) := by
  have hpos := jsonChars_length_pos d
  cases bufNull with
  | true => simp [toJsonString]
  | false =>
      by_cases hz : size = 0
      · subst hz; simp [toJsonString]
      · simp only [toJsonString, Bool.false_eq_true, false_or, hz, if_neg,
          ite_false, decide_eq_true_eq, true_and]
        constructor
        · rintro ⟨-, hlt⟩
          refine ⟨hlt, ?_⟩
          have : (jsonChars d).length ≤ size - 1 := by omega
          simp [List.take_of_length_le this]
        · rintro ⟨hlt, -⟩
          exact ⟨hpos, hlt⟩

/-- C3 (amended): a NaN probe reading bypasses the moving-average filter
(the buffer is unchanged) but is itself stored as the latest raw value
and published in that cycle's snapshot; the cycle completes normally.
The previous valid value is NOT retained in the published snapshot. -/
theorem nan_reading_published_unfiltered (FS : ℕ) (s : SMState)
    (e : SensorEnv) (ht : e.temperature = none) (hh : e.humidity = none) :
    (readSensors FS s e).rawData.temperatureRaw = none ∧
    (readSensors FS s e).tempBuffer = s.tempBuffer ∧
    (processSensorData (readSensors FS s e)).processedData.temperature
      = none ∧
    (readSensors FS s e).rawData.humidityRaw = none ∧
    (readSensors FS s e).humidityBuffer = s.humidityBuffer ∧
    (processSensorData (readSensors FS s e)).processedData.humidityPercent
      = none := by
  refine ⟨?_, ?_, ?_, ?_, ?_, ?_⟩ <;>
    simp [readSensors, processSensorData, SensorData.fromRaw, ht, hh]

/-- C3 witness: the amended claim at a concrete NaN cycle. -/
theorem nan_reading_published_unfiltered_w :
    (readSensors 3 (SMState.initial 3) nanEnv).rawData.temperatureRaw
      = none ∧
    (readSensors 3 (SMState.initial 3) nanEnv).tempBuffer
      = (SMState.initial 3).tempBuffer ∧
    (processSensorData
        (readSensors 3 (SMState.initial 3) nanEnv)).processedData.temperature
      = none ∧
    (readSensors 3 (SMState.initial 3) nanEnv).rawData.humidityRaw = none ∧
    (readSensors 3 (SMState.initial 3) nanEnv).humidityBuffer
      = (SMState.initial 3).humidityBuffer ∧
    (processSensorData
        (readSensors 3
          (SMState.initial 3) nanEnv)).processedData.humidityPercent
      = none :=
  nan_reading_published_unfiltered 3 (SMState.initial 3) nanEnv rfl rfl

/-- C3 counterexample: starting from the boot state, whose previous
valid temperature is 25 °C, a NaN probe cycle publishes a snapshot whose
temperature is NOT the previous valid 25 °C (it is NaN), refuting the
retention claim. -/
theorem nan_retention_counterexample :
    (SMState.initial 3).processedData.temperature = some 25 ∧
    (processSensorData
        (readSensors 3 (SMState.initial 3) nanEnv)).processedData.temperature
      ≠ some 25 := by
  constructor
  · rfl
  · simp [readSensors, processSensorData, SensorData.fromRaw, nanEnv]

/-- C8: an out-of-range temperature (outside −50..100 °C) or humidity
(outside 0..100 %) reading leaves that channel's filter buffer (and so
its rolling average) unchanged, yet is still stored as the latest raw
value of the channel. -/
theorem out_of_range_bypasses_filter (FS : ℕ) (s : SMState)
    (e : SensorEnv) :
    (∀ t : ℚ, e.temperature = some t → ¬(-50 < t ∧ t < 100) →
      (readSensors FS s e).tempBuffer = s.tempBuffer ∧
      (readSensors FS s e).rawData.temperatureRaw = some t) ∧
    (∀ h : ℚ, e.humidity = some h → ¬(0 ≤ h ∧ h ≤ 100) →
      (readSensors FS s e).humidityBuffer = s.humidityBuffer ∧
      (readSensors FS s e).rawData.humidityRaw = some h) := by
  constructor
  · intro t het hr
    constructor <;> simp [readSensors, het, hr]
  · intro h heh hr
    constructor <;> simp [readSensors, heh, hr]

/-- C8 witness: 200 °C and 150 % readings bypass the filter but are
stored as the latest raw values. -/
theorem out_of_range_bypasses_filter_w :
    ((readSensors 3 (SMState.initial 3) rangeEnv).tempBuffer
        = (SMState.initial 3).tempBuffer ∧
      (readSensors 3 (SMState.initial 3) rangeEnv).rawData.temperatureRaw
        = some 200) ∧
    ((readSensors 3 (SMState.initial 3) rangeEnv).humidityBuffer
        = (SMState.initial 3).humidityBuffer ∧
      (readSensors 3 (SMState.initial 3) rangeEnv).rawData.humidityRaw
        = some 150) :=
  ⟨(out_of_range_bypasses_filter 3 (SMState.initial 3) rangeEnv).1 200 rfl
      (by norm_num),
    (out_of_range_bypasses_filter 3 (SMState.initial 3) rangeEnv).2 150 rfl
      (by norm_num)⟩

theorem flagsConsistent_processSensorData (s : SMState) :
    flagsConsistent (processSensorData s) := by
  simp [flagsConsistent, processSensorData, SensorData.fromRaw]

theorem checkStateChanges_processedData (s : SMState) (now : ℕ) :
    (checkStateChanges s now).processedData = s.processedData := rfl

theorem checkStateChanges_rawData (s : SMState) (now : ℕ) :
    (checkStateChanges s now).rawData = s.rawData := rfl

theorem flagsConsistent_checkStateChanges (s : SMState) (now : ℕ)
    (h : flagsConsistent s) : flagsConsistent (checkStateChanges s now) := h

/-- C9: after initialization and after every `update()` call — via the
full acquisition path or the fast digital-only poll — the processed
nutrient flags agree with the raw states: `phosphorusPresent` holds iff
`phosphorusState ≠ 0`, and likewise for potassium. -/
theorem nutrient_flags_agree (FS : ℕ) (s : SMState) (e eI : SensorEnv)
    (f : Bool) (h : flagsConsistent s) :
    flagsConsistent (SMState.initial FS) ∧
    flagsConsistent (smInit FS eI) ∧
    flagsConsistent (update FS s e f).1 := by
  refine ⟨by simp [flagsConsistent, SMState.initial, SensorData.default,
      SensorRawData.default], flagsConsistent_processSensorData _, ?_⟩
  have hfull : flagsConsistent (fullCycle FS s e) := by
    apply flagsConsistent_checkStateChanges
    unfold displayStep
    split_ifs with hd
    · exact flagsConsistent_processSensorData _
    · exact flagsConsistent_processSensorData _
  have hfast : ∀ p : SMState × Bool, flagsConsistent p.1 →
      flagsConsistent (fastPoll e p).1 := by
    intro p hp
    unfold fastPoll
    dsimp only
    split_ifs <;>
      first
        | exact hp
        | (apply flagsConsistent_checkStateChanges
           simp_all [flagsConsistent])
  unfold update
  split_ifs with hc
  · exact hfast _ hfull
  · exact hfast _ h

/-- C9 witness: the flag/raw agreement at the boot state, after an
initial acquisition, and after a concrete `update()` call. -/
theorem nutrient_flags_agree_w :
    flagsConsistent (SMState.initial 3) ∧
    flagsConsistent (smInit 3 nanEnv) ∧
    flagsConsistent (update 3 (SMState.initial 3) rangeEnv false).1 :=
  nutrient_flags_agree 3 (SMState.initial 3) rangeEnv nanEnv false (by decide)

/-- C10: when no full acquisition cycle is due and `forceUpdate` is
false, `update()` leaves `ph`, `temperature`, `humidityPercent` and the
snapshot timestamp of the processed data exactly as the last full cycle
left them; only the nutrient presence flags may change (to the
just-polled button levels), so a flag change is published under the
previous cycle's timestamp. -/
theorem fast_poll_frame (FS : ℕ) (s : SMState) (e : SensorEnv)
    (h : sub32 (e.millis % U32) s.lastReadTime < SENSOR_CHECK_INTERVAL) :
    ((update FS s e false).1.processedData.ph = s.processedData.ph ∧
      (update FS s e false).1.processedData.temperature
        = s.processedData.temperature ∧
      (update FS s e false).1.processedData.humidityPercent
        = s.processedData.humidityPercent ∧
      (update FS s e false).1.processedData.timestamp
        = s.processedData.timestamp) ∧
    ((update FS s e false).1.processedData.phosphorusPresent = e.phosphorusBtn
      ∨ (update FS s e false).1.processedData.phosphorusPresent
        = s.processedData.phosphorusPresent) ∧
    ((update FS s e false).1.processedData.potassiumPresent = e.potassiumBtn
      ∨ (update FS s e false).1.processedData.potassiumPresent
        = s.processedData.potassiumPresent) := by
  have hnc : ¬(SENSOR_CHECK_INTERVAL ≤ sub32 (e.millis % U32) s.lastReadTime
      ∨ false = true) := by
    simp only [Bool.false_eq_true, or_false, not_le]
    exact h
  unfold update
  rw [if_neg hnc]
  unfold fastPoll
  dsimp only
  split_ifs <;> simp [checkStateChanges]

/-- C10 witness: the frame condition at a concrete early-poll call. -/
theorem fast_poll_frame_w :
    sub32 (pollEnv.millis % U32) (SMState.initial 3).lastReadTime
        < SENSOR_CHECK_INTERVAL ∧
    (((update 3 (SMState.initial 3) pollEnv false).1.processedData.ph
        = (SMState.initial 3).processedData.ph ∧
      (update 3 (SMState.initial 3) pollEnv false).1.processedData.temperature
        = (SMState.initial 3).processedData.temperature ∧
      (update 3
          (SMState.initial 3) pollEnv false).1.processedData.humidityPercent
        = (SMState.initial 3).processedData.humidityPercent ∧
      (update 3 (SMState.initial 3) pollEnv false).1.processedData.timestamp
        = (SMState.initial 3).processedData.timestamp) ∧
    ((update 3
          (SMState.initial 3) pollEnv false).1.processedData.phosphorusPresent
        = pollEnv.phosphorusBtn
      ∨ (update 3
          (SMState.initial 3) pollEnv false).1.processedData.phosphorusPresent
        = (SMState.initial 3).processedData.phosphorusPresent) ∧
    ((update 3
          (SMState.initial 3) pollEnv false).1.processedData.potassiumPresent
        = pollEnv.potassiumBtn
      ∨ (update 3
          (SMState.initial 3) pollEnv false).1.processedData.potassiumPresent
        = (SMState.initial 3).processedData.potassiumPresent)) :=
  ⟨by decide, fast_poll_frame 3 (SMState.initial 3) pollEnv (by decide)⟩

theorem runBuf_length (FS : ℕ) {α : Type} :
    ∀ (s b : List α) (i : ℕ), (runBuf FS b i s).length = b.length := by
  intro s
  induction s with
  | nil => intro b i; rfl
  | cons x u ih =>
      intro b i
      simp only [runBuf]
      rw [ih, List.length_set]


theorem runBuf_append (FS : ℕ) (hFS : 0 < FS) {α : Type} :
    ∀ (s t b : List α) (i : ℕ), i < FS →
      runBuf FS b i (s ++ t)
        = runBuf FS (runBuf FS b i s) ((i + s.length) % FS) t := by
  intro s
  induction s with
  | nil =>
      intro t b i hi
      simp [runBuf, Nat.mod_eq_of_lt hi]
  | cons x u ih =>
      intro t b i hi
      have hstep : (x :: u) ++ t = x :: (u ++ t) := rfl
      rw [hstep]
      show runBuf FS (b.set i x) ((i + 1) % FS) (u ++ t) = _
      rw [ih t (b.set i x) ((i + 1) % FS) (Nat.mod_lt _ hFS)]
      have hidx : ((i + 1) % FS + u.length) % FS
          = (i + (x :: u).length) % FS := by
        rw [Nat.mod_add_mod, List.length_cons]
        congr 1
        omega
      rw [hidx]
      rfl

theorem runBuf_nowrap (FS : ℕ) {α : Type} :
    ∀ (s b : List α) (i : ℕ), i + s.length ≤ FS → FS ≤ b.length →
      runBuf FS b i s = b.take i ++ s ++ b.drop (i + s.length) := by
  intro s
  induction s with
  | nil =>
      intro b i hle hb
      simp only [runBuf, List.append_nil, List.length_nil, Nat.add_zero]
      rw [List.take_append_drop]
  | cons x u ih =>
      intro t i hle hb
      have hlen : i + (u.length + 1) ≤ FS := by
        simpa [List.length_cons] using hle
      have hib : i < t.length := by omega
      show runBuf FS (t.set i x) ((i + 1) % FS) u = _
      rcases Nat.lt_or_ge (i + 1) FS with hcase | hcase
      · rw [Nat.mod_eq_of_lt hcase,
          ih (t.set i x) (i + 1) (by omega)
            (by rw [List.length_set]; exact hb)]
        have h1 : (t.set i x).take (i + 1) = t.take i ++ [x] := by
          rw [List.set_take,
            List.set_eq_take_cons_drop x
              (show i < (t.take (i + 1)).length by
                rw [List.length_take]; omega),
            List.take_take,
            List.drop_eq_nil_of_le
              (show (t.take (i + 1)).length ≤ i + 1 by
                rw [List.length_take]; omega)]
          have hmin : min i (i + 1) = i := by omega
          rw [hmin]
        have h2 : (t.set i x).drop (i + 1 + u.length)
            = t.drop (i + (x :: u).length) := by
          rw [List.drop_set, if_pos (by omega)]
          congr 1
          simp only [List.length_cons]
          omega
        rw [h1, h2]
        simp
      · have hu : u = [] := by
          have : u.length = 0 := by omega
          exact List.eq_nil_of_length_eq_zero this
        subst hu
        show t.set i x = _
        rw [List.set_eq_take_cons_drop x hib]
        simp

theorem runBuf_full_rotation (FS : ℕ) (hFS : 0 < FS) {α : Type}
    (s b : List α) (i : ℕ) (hi : i < FS) (hs : s.length = FS)
    (hb : b.length = FS) :
    runBuf FS b i s = s.drop (FS - i) ++ s.take (FS - i) := by
  have hkle : FS - i ≤ s.length := by omega
  have hlen1 : (s.take (FS - i)).length = FS - i := by
    rw [List.length_take]
    omega
  have hlen2 : (s.drop (FS - i)).length = i := by
    rw [List.length_drop]
    omega
  have hti : (b.take i).length = i := by
    rw [List.length_take]
    omega
  have hsplit : runBuf FS b i s
      = runBuf FS (runBuf FS b i (s.take (FS - i)))
          ((i + (s.take (FS - i)).length) % FS) (s.drop (FS - i)) := by
    rw [← runBuf_append FS hFS _ _ _ _ hi, List.take_append_drop]
  rw [hsplit,
    runBuf_nowrap FS _ _ _ (by omega) (le_of_eq hb.symm)]
  rw [hlen1]
  have hdropb : b.drop (i + (FS - i)) = [] :=
    List.drop_eq_nil_of_le (by omega)
  rw [hdropb, List.append_nil]
  have hidx : (i + (FS - i)) % FS = 0 := by
    have : i + (FS - i) = FS := by omega
    rw [this, Nat.mod_self]
  rw [hidx]
  have hB1 : (b.take i ++ s.take (FS - i)).length = FS := by
    rw [List.length_append, hti, hlen1]
    omega
  rw [runBuf_nowrap FS _ _ 0 (by omega) (le_of_eq hB1.symm)]
  rw [hlen2, List.take_zero, List.nil_append, Nat.zero_add,
    List.drop_append_eq_append_drop, hti,
    List.drop_eq_nil_of_le (le_of_eq hti), Nat.sub_self, List.drop_zero,
    List.nil_append]

theorem feedFloat_snd (FS : ℕ) :
    ∀ (s b : List ℚ) (i : ℕ), s ≠ [] →
      (feedFloat FS i b s).2 = (runBuf FS b i s).sum / FS := by
  intro s
  induction s with
  | nil => intro b i h; exact absurd rfl h
  | cons x u ih =>
      intro b i _
      cases u with
      | nil => rfl
      | cons y v =>
          show (feedFloat FS ((i + 1) % FS) (b.set i x) (y :: v)).2 = _
          rw [ih (b.set i x) ((i + 1) % FS) (by simp)]
          rfl

theorem feedU16_snd (FS : ℕ) :
    ∀ (s b : List ℕ) (i : ℕ), s ≠ [] →
      (feedU16 FS i b s).2 = (sumU32 (runBuf FS b i s) / FS) % U16 := by
  intro s
  induction s with
  | nil => intro b i h; exact absurd rfl h
  | cons x u ih =>
      intro b i _
      cases u with
      | nil => rfl
      | cons y v =>
          show (feedU16 FS ((i + 1) % FS) (b.set i x) (y :: v)).2 = _
          rw [ih (b.set i x) ((i + 1) % FS) (by simp)]
          rfl

theorem foldl_addmod_eq (l : List ℕ) :
    ∀ a : ℕ, a + l.sum < U32 →
      l.foldl (fun x y => (x + y) % U32) a = a + l.sum := by
  induction l with
  | nil => intro a _; simp
  | cons x u ih =>
      intro a h
      simp only [List.sum_cons] at h
      simp only [List.foldl_cons]
      rw [Nat.mod_eq_of_lt (by omega), ih (a + x) (by omega),
        List.sum_cons]
      omega

theorem sumU32_eq_sum (l : List ℕ) (h : l.sum < U32) : sumU32 l = l.sum := by
  unfold sumU32
  rw [foldl_addmod_eq l 0 (by omega)]
  omega

/-- The final filter buffer after feeding `FS`-or-more samples from the
boot state holds exactly the last `FS` samples (rotated). -/
theorem runBuf_warmup {α : Type} (FS : ℕ) (hFS : 0 < FS) (s : List α)
    (b : List α) (hb : b.length = FS) (hs : FS ≤ s.length) :
    ∃ k, runBuf FS b 0 s
      = (s.drop (s.length - FS)).drop k ++ (s.drop (s.length - FS)).take k := by
  have hsplit : s.take (s.length - FS) ++ s.drop (s.length - FS) = s :=
    List.take_append_drop _ _
  have hsuf : (s.drop (s.length - FS)).length = FS := by
    rw [List.length_drop]
    omega
  have h1 : runBuf FS b 0 s
      = runBuf FS (runBuf FS b 0 (s.take (s.length - FS)))
          ((0 + (s.take (s.length - FS)).length) % FS)
          (s.drop (s.length - FS)) := by
    rw [← runBuf_append FS hFS _ _ _ _ hFS, hsplit]
  have hb1 : (runBuf FS b 0 (s.take (s.length - FS))).length = FS := by
    rw [runBuf_length]
    exact hb
  refine ⟨FS - (0 + (s.take (s.length - FS)).length) % FS, ?_⟩
  rw [h1, runBuf_full_rotation FS hFS _ _ _ (Nat.mod_lt _ hFS) hsuf hb1]

/-- C2 (amended): after at least `N = FILTER_SIZE` warm-up calls with
the rotating index advancing once per call, the float filter
(temperature, humidity channels) returns exactly the arithmetic mean of
the last `N` samples, while the uint16 pH filter returns the FLOOR of
that mean (`sum / N` in truncating integer division, cast through
uint16), which differs from the arithmetic mean whenever the sum of the
last `N` samples is not divisible by `N`. -/
theorem filter_mean_after_warmup (FS : ℕ) (sf : List ℚ) (su : List ℕ)
    (hFS : 0 < FS) (hFS16 : FS ≤ U16) (hlf : FS ≤ sf.length)
    (hlu : FS ≤ su.length) (hu : ∀ x ∈ su, x < U16) :
    (feedFloat FS 0 (List.replicate FS 0) sf).2
        = (sf.drop (sf.length - FS)).sum / FS ∧
    (feedU16 FS 0 (List.replicate FS 0) su).2
        = (su.drop (su.length - FS)).sum / FS := by
  constructor
  · have hne : sf ≠ [] := by
      intro h
      rw [h] at hlf
      simp at hlf
      omega
    rw [feedFloat_snd FS sf _ 0 hne]
    obtain ⟨k, hrot⟩ := runBuf_warmup FS hFS sf (List.replicate FS 0)
      (List.length_replicate FS 0) hlf
    rw [hrot, List.sum_append, add_comm, ← List.sum_append,
      List.take_append_drop]
  · have hne : su ≠ [] := by
      intro h
      rw [h] at hlu
      simp at hlu
      omega
    rw [feedU16_snd FS su _ 0 hne]
    obtain ⟨k, hrot⟩ := runBuf_warmup FS hFS su (List.replicate FS 0)
      (List.length_replicate FS 0) hlu
    set suf := su.drop (su.length - FS) with hsufdef
    have hsuf : suf.length = FS := by
      rw [hsufdef, List.length_drop]
      omega
    have hmem : ∀ x ∈ suf, x ≤ U16 - 1 := by
      intro x hx
      have : x ∈ su := List.mem_of_mem_drop hx
      have := hu x this
      omega
    have hsum : suf.sum ≤ FS * (U16 - 1) := by
      have := List.sum_le_card_nsmul suf (U16 - 1) hmem
      rwa [hsuf, smul_eq_mul] at this
    have hsum32 : suf.sum < U32 := by
      have h2 : FS * (U16 - 1) ≤ U16 * (U16 - 1) :=
        Nat.mul_le_mul_right _ hFS16
      have h3 : U16 * (U16 - 1) < U32 := by decide
      omega
    have hrotsum : (suf.drop k ++ suf.take k).sum = suf.sum := by
      rw [List.sum_append, add_comm, ← List.sum_append,
        List.take_append_drop]
    rw [hrot, sumU32_eq_sum _ (by rw [hrotsum]; exact hsum32), hrotsum]
    have hdiv : suf.sum / FS ≤ U16 - 1 := by
      calc suf.sum / FS ≤ FS * (U16 - 1) / FS := Nat.div_le_div_right hsum
        _ = U16 - 1 := Nat.mul_div_cancel_left _ hFS
    exact Nat.mod_eq_of_lt (by omega)

/-- C2 witness: with buffer size 2 and samples 1, 2, 3, the float filter
returns (2 + 3)/2 = 5/2 and the uint16 filter returns ⌊5/2⌋ = 2. -/
theorem filter_mean_after_warmup_w :
    (0 < 2 ∧ 2 ≤ U16 ∧ 2 ≤ ([1, 2, 3] : List ℚ).length ∧
      2 ≤ ([1, 2, 3] : List ℕ).length ∧
      ∀ x ∈ ([1, 2, 3] : List ℕ), x < U16) ∧
    ((feedFloat 2 0 (List.replicate 2 0) [1, 2, 3]).2
        = (([1, 2, 3] : List ℚ).drop (3 - 2)).sum / 2 ∧
      (feedU16 2 0 (List.replicate 2 0) [1, 2, 3]).2
        = (([1, 2, 3] : List ℕ).drop (3 - 2)).sum / 2) :=
  ⟨⟨by decide, by decide, by decide, by decide, by decide⟩,
    filter_mean_after_warmup 2 [1, 2, 3] [1, 2, 3] (by decide) (by decide)
      (by decide) (by decide) (by decide)⟩

/-- C2 counterexample: the uint16 pH filter does not return the
arithmetic mean: feeding samples 1 then 0 through a size-2 buffer
returns 0, while the arithmetic mean of the last two samples is 1/2. -/
theorem ph_filter_truncates_mean :
    (feedU16 2 0 (List.replicate 2 0) [1, 0]).2 = 0 ∧
    (((1 : ℚ) + 0) / 2) ≠ 0 := by
  constructor
  · rfl
  · norm_num

theorem irrStep_inv (cfg : IrrConfig) (s : IrrState) (clock now : ℕ)
    (m : ℚ) (c : IrrCmd) (h : IrrInv cfg clock s) (hle : clock ≤ now) :
    IrrInv cfg now (irrStep cfg s now m c) := by
  obtain ⟨ph, a, d, r, n⟩ := s
  obtain ⟨h1, h2, h3, h4⟩ := h
  simp only [IrrInv] at *
  cases ph <;> dsimp only [irrStep] <;> split_ifs <;>
    simp_all <;> omega

theorem irrStep_runtime (cfg : IrrConfig) (s : IrrState) (clock now : ℕ)
    (m : ℚ) (c : IrrCmd) (hmax : 0 < cfg.maxRuntime)
    (h : IrrInv cfg clock s) (hle : clock ≤ now) :
    runtimeOK cfg now (irrStep cfg s now m c) := by
  obtain ⟨ph, a, d, r, n⟩ := s
  obtain ⟨h1, h2, h3, h4⟩ := h
  simp only [IrrInv] at *
  cases ph <;> dsimp only [irrStep, runtimeOK] <;> split_ifs <;>
    simp_all <;> omega

theorem irrRun_inv (cfg : IrrConfig) :
    ∀ (inputs : List IrrInput) (clock : ℕ) (s : IrrState),
      IrrInv cfg clock s →
      IrrInv cfg (irrRun cfg (clock, s) inputs).1
          (irrRun cfg (clock, s) inputs).2 ∧
        clock ≤ (irrRun cfg (clock, s) inputs).1 := by
  intro inputs
  induction inputs with
  | nil => intro clock s h; exact ⟨h, le_refl _⟩
  | cons inp rest ih =>
      intro clock s h
      have hstep := irrStep_inv cfg s clock (clock + inp.dt) inp.moisture
        inp.cmd h (by omega)
      obtain ⟨ha, hb⟩ := ih (clock + inp.dt) _ hstep
      exact ⟨ha, by simpa using le_trans (by omega : clock ≤ clock + inp.dt) hb⟩

theorem irrRun_runtime (cfg : IrrConfig) (hmax : 0 < cfg.maxRuntime) :
    ∀ (inputs : List IrrInput) (clock : ℕ) (s : IrrState),
      IrrInv cfg clock s → runtimeOK cfg clock s →
      runtimeOK cfg (irrRun cfg (clock, s) inputs).1
        (irrRun cfg (clock, s) inputs).2 := by
  intro inputs
  induction inputs with
  | nil => intro clock s _ hr; exact hr
  | cons inp rest ih =>
      intro clock s h _
      exact ih (clock + inp.dt) _
        (irrStep_inv cfg s clock _ inp.moisture inp.cmd h (by omega))
        (irrStep_runtime cfg s clock _ inp.moisture inp.cmd hmax h (by omega))

theorem irrStep_activation (cfg : IrrConfig) (s : IrrState) (now : ℕ)
    (m : ℚ) (c : IrrCmd) (h2 : s.lastDeactivation ≤ now)
    (hA : s.phase ≠ .active)
    (hB : (irrStep cfg s now m c).phase = .active) :
    s.lastDeactivation + cfg.minInterval ≤ now ∧
    (irrStep cfg s now m c).activationStart = now := by
  obtain ⟨ph, a, d, r, n⟩ := s
  cases ph <;> dsimp only [irrStep] at * <;> split_ifs at hB with hc <;>
    simp_all <;> omega

theorem irrStep_anchor_mono (cfg : IrrConfig) (s : IrrState)
    (clock now : ℕ) (m : ℚ) (c : IrrCmd) (h : IrrInv cfg clock s)
    (hle : clock ≤ now)
    (hno : ¬(s.phase ≠ .active ∧ (irrStep cfg s now m c).phase = .active)) :
    anchor s ≤ anchor (irrStep cfg s now m c) := by
  obtain ⟨ph, a, d, r, n⟩ := s
  obtain ⟨h1, h2, h3, h4⟩ := h
  simp only [IrrInv] at *
  cases ph <;> dsimp only [irrStep, anchor] at * <;> split_ifs at * <;>
    simp_all <;> omega

theorem activationTimes_sep (cfg : IrrConfig) :
    ∀ (inputs : List IrrInput) (clock : ℕ) (s : IrrState),
      IrrInv cfg clock s →
      (∀ t ∈ activationTimes cfg (clock, s) inputs,
        anchor s + cfg.minInterval ≤ t) ∧
      List.Pairwise (fun a b => a + cfg.minInterval ≤ b)
        (activationTimes cfg (clock, s) inputs) := by
  intro inputs
  induction inputs with
  | nil =>
      intro clock s _
      constructor
      · intro t ht
        simp [activationTimes] at ht
      · simp [activationTimes]
  | cons inp rest ih =>
      intro clock s h
      have hle : clock ≤ clock + inp.dt := by omega
      have hstep := irrStep_inv cfg s clock (clock + inp.dt) inp.moisture
        inp.cmd h hle
      obtain ⟨ihA, ihP⟩ :=
        ih (clock + inp.dt) (irrStep cfg s (clock + inp.dt) inp.moisture
          inp.cmd) hstep
      have hacts : activationTimes cfg (clock, s) (inp :: rest)
          = (if s.phase ≠ .active ∧
                (irrStep cfg s (clock + inp.dt) inp.moisture inp.cmd).phase
                  = .active then [clock + inp.dt] else [])
            ++ activationTimes cfg (clock + inp.dt,
                irrStep cfg s (clock + inp.dt) inp.moisture inp.cmd) rest :=
        rfl
      rw [hacts]
      by_cases hact : s.phase ≠ .active ∧
          (irrStep cfg s (clock + inp.dt) inp.moisture inp.cmd).phase
            = .active
      · rw [if_pos hact]
        have hdnow : s.lastDeactivation ≤ clock + inp.dt := by
          have := h.2.1
          omega
        have hgate := irrStep_activation cfg s (clock + inp.dt) inp.moisture
          inp.cmd hdnow hact.1 hact.2
        have hanchS : anchor s = s.lastDeactivation := by
          unfold anchor
          rw [if_neg hact.1]
        have hanch2 : anchor (irrStep cfg s (clock + inp.dt) inp.moisture
            inp.cmd) = clock + inp.dt := by
          unfold anchor
          rw [if_pos hact.2, hgate.2]
        rw [hanch2] at ihA
        constructor
        · intro t ht
          rcases List.mem_cons.mp ht with rfl | htail
          · rw [hanchS]
            exact hgate.1
          · have := ihA t htail
            rw [hanchS]
            omega
        · refine List.Pairwise.cons ?_ ihP
          intro t htail
          have := ihA t htail
          omega
      · rw [if_neg hact, List.nil_append]
        have hmono := irrStep_anchor_mono cfg s clock (clock + inp.dt)
          inp.moisture inp.cmd h hle hact
        refine ⟨?_, ihP⟩
        intro t ht
        have := ihA t ht
        omega

/-- C1: for every input history (arbitrary moisture readings and
manual/emergency commands, arbitrary cycle cadence), the state machine
itself enforces the two safety limits: at every observable instant of
every prefix, an ACTIVE state's elapsed runtime never exceeds the
configured maximum continuous runtime, and no two ACTIVE intervals
start less than the configured minimum inter-activation interval
apart.  No caller input can violate either bound. -/
theorem irrigation_safety (cfg : IrrConfig) (inputs : List IrrInput)
    (k : ℕ) (hmax : 0 < cfg.maxRuntime) :
    ((irrRun cfg (0, IrrState.start) (inputs.take k)).2.phase
        = IrrPhase.active →
      (irrRun cfg (0, IrrState.start) (inputs.take k)).1
          - (irrRun cfg
              (0, IrrState.start) (inputs.take k)).2.activationStart
        ≤ cfg.maxRuntime) ∧
    List.Pairwise (fun a b => a + cfg.minInterval ≤ b)
      (activationTimes cfg (0, IrrState.start) inputs) := by
  have hinv0 : IrrInv cfg 0 IrrState.start := by
    simp [IrrInv, IrrState.start]
  constructor
  · intro hph
    have hrt := irrRun_runtime cfg hmax (inputs.take k) 0 IrrState.start
      hinv0 (by simp [runtimeOK, IrrState.start])
    have := hrt hph
    omega
  · exact (activationTimes_sep cfg inputs 0 IrrState.start hinv0).2

/-- C1 witness: the safety bounds at the demonstration history, where
the controller is force-stopped by the runtime ceiling and re-activates
only after the minimum interval. -/
theorem irrigation_safety_w :
    0 < irrCfgDemo.maxRuntime ∧
    (((irrRun irrCfgDemo (0, IrrState.start) (irrInputsDemo.take 3)).2.phase
        = IrrPhase.active →
      (irrRun irrCfgDemo (0, IrrState.start) (irrInputsDemo.take 3)).1
          - (irrRun irrCfgDemo
              (0, IrrState.start) (irrInputsDemo.take 3)).2.activationStart
        ≤ irrCfgDemo.maxRuntime) ∧
    List.Pairwise (fun a b => a + irrCfgDemo.minInterval ≤ b)
      (activationTimes irrCfgDemo (0, IrrState.start) irrInputsDemo)) :=
  ⟨by decide, irrigation_safety irrCfgDemo irrInputsDemo 3 (by decide)⟩
